import Mathlib

/-!
Shallow embedding of `mopidy/audio/scan.py` (module `mopidy.audio.scan`).

The module has two halves:

* `Scanner`: drives a GStreamer pipeline, polling its bus for messages
  (`_collect`), querying the stream duration (`_query_duration`) and
  resetting the pipeline after every scan (`scan` with its try/finally).
  We embed the bus as an explicit list of messages observed before the
  wall-clock timeout elapses: the loop body is `collectLoop`, processing
  one popped message per step; an exhausted list means the timeout ran
  out with no terminal message.  Raised `ScannerError`s are the `.error`
  branch of `Except String`.

* the pure normalisation functions `_artists` and `tags_to_track`,
  turning the collected tag dictionary into `Track`/`Album`/`Artist`
  records.  Python dictionaries are association lists with first-match
  lookup; Python runtime errors that the code can raise on malformed
  tag maps (IndexError from `[0]`, TypeError from the string join on a
  non-string, AttributeError from `.isoformat()` on a non-date) are the
  `.error` branch of `Except PyError`.
-/

/-- A value stored in a tag list: GStreamer tags carry strings, integers
or dates (`datetime.date` in Python). -/
inductive TagValue where
  | str (s : String)
  | int (n : Int)
  | date (y : Int) (m : Nat) (d : Nat)
deriving DecidableEq, Repr

/-- Python truthiness of a tag value: empty strings and zero are falsy,
dates are always truthy. -/
def TagValue.truthy : TagValue → Bool
  | .str s => !s.isEmpty
  | .int n => n != 0
  | .date _ _ _ => true

/-- Left-pad a numeral string with zeros to the given width. -/
def padZeros (s : String) (w : Nat) : String :=
  String.mk (List.replicate (w - s.length) '0') ++ s

/-- A Python runtime error that the normalisation code can raise. -/
inductive PyError where
  | indexError
  | typeError
  | attributeError
deriving DecidableEq, Repr

/-- Date formatting, `datetime.date.isoformat()`, giving `YYYY-MM-DD`;
calling it on a value that is not a date raises `AttributeError`. -/
def TagValue.isoformat : TagValue → Except PyError String
  | .date y m d =>
      .ok (padZeros (toString y) 4 ++ "-" ++ padZeros (toString m) 2 ++ "-" ++
        padZeros (toString d) 2)
  | _ => .error .attributeError

/-- The tag dictionary: tag name to the sequence of values most recently
seen for it.  A Python `dict` embedded as an association list with
first-match lookup. -/
abbrev TagMap := List (String × List TagValue)

/-- Dictionary lookup, `tags[k]` / `tags.get(k)`: the value at the first
entry for the key, if any. -/
def TagMap.find? : TagMap → String → Option (List TagValue)
  | [], _ => none
  | (k, v) :: rest, key => if k = key then some v else TagMap.find? rest key

/-- Lookup with a default, `tags.get(k, d)`. -/
def TagMap.getD (m : TagMap) (k : String) (d : List TagValue) : List TagValue :=
  (m.find? k).getD d

/-- Containment test `k in tags` for dictionaries. -/
def TagMap.hasKey (m : TagMap) (k : String) : Bool :=
  (m.find? k).isSome

/-- Dictionary assignment `tags[k] = v`: replace the value at the first entry for the key in
place, or append a new entry (dictionary assignment preserves insertion
order). -/
def TagMap.setKey : TagMap → String → List TagValue → TagMap
  | [], k, v => [(k, v)]
  | (k0, v0) :: rest, k, v =>
    if k0 = k then (k, v) :: rest else (k0, v0) :: TagMap.setKey rest k v

/-- Dictionary update `tags.update(new)`: store every entry of `new`, the sequence of each key
fully replacing any previous one. -/
def TagMap.update (m new : TagMap) : TagMap :=
  new.foldl (fun acc p => acc.setKey p.1 p.2) m

/-- A dictionary has each key at most once. -/
def keysNodup (m : TagMap) : Prop :=
  (m.map Prod.fst).Nodup

instance (m : TagMap) : Decidable (keysNodup m) := by
  unfold keysNodup; infer_instance

/-- A message popped from the bus of the pipeline.  `error` carries the text
of `message.parse_error()[0]`; `asyncDone` records whether
`message.src == self._pipe`; `tag` carries the converted tag list
(`utils.convert_taglist` returns a dictionary); `other` is any other
message type, which the loop ignores. -/
inductive Message where
  | error (msg : String)
  | eos
  | asyncDone (fromPipe : Bool)
  | tag (tl : TagMap)
  | other
deriving DecidableEq, Repr

/-- A message on which `_collect` stops polling: an error, end-of-stream,
or an async-done whose source is the top-level pipeline. -/
def Message.isTerminal : Message → Bool
  | .error _ => true
  | .eos => true
  | .asyncDone fromPipe => fromPipe
  | .tag _ => false
  | .other => false

/-- Modelled from the spec: `mopidy.utils.encoding.locale_decode` is not
under `src/`; per the spec it is a best-effort locale-aware decoding of
the error text, which on our already-decoded string model is the
identity. -/
def locale_decode (s : String) : String := s

/-- The polling loop body of `Scanner._collect`: pop one message at a
time, dispatch on its type, and accumulate tags.  An exhausted message
list means the wall-clock timeout elapsed with no terminal message, so
the loop falls through to a ScannerError whose text is Timeout after the configured number of ms. -/
def collectLoop (timeout_ms : Nat) : List Message → TagMap → Except String TagMap
  | [], _ => .error ("Timeout after " ++ toString timeout_ms ++ "ms")
  | msg :: rest, tags =>
    match msg with
    | .error e => .error (locale_decode e)
    | .eos => .ok tags
    | .asyncDone fromPipe =>
        if fromPipe then .ok tags else collectLoop timeout_ms rest tags
    | .tag tl => collectLoop timeout_ms rest (tags.update tl)
    | .other => collectLoop timeout_ms rest tags

/-- The method `Scanner._collect`: poll the given messages starting from an empty
tag dictionary. -/
def _collect (timeout_ms : Nat) (msgs : List Message) : Except String TagMap :=
  collectLoop timeout_ms msgs []

/-- The constant `gst.MSECOND`: one millisecond in the nanosecond time unit of GStreamer. -/
def MSECOND : Int := 1000000

/-- The method `Scanner._query_duration`: `.error ()` is a raised `gst.QueryError`,
`.ok d` the raw native-time value returned by the pipeline. -/
def _query_duration (raw : Except Unit Int) : Option Int :=
  match raw with
  | .error _ => none
  | .ok duration => if duration < 0 then none else some (duration / MSECOND)

/-- Pipeline side effects that `scan` triggers, in order. -/
inductive PipelineAction where
  | setup
  | reset
deriving DecidableEq, Repr

/-- What the pipeline delivers during one `scan` call: the messages
observed on the bus before the timeout elapses, and the outcome of the
duration query. -/
structure PipelineEnv where
  msgs : List Message
  rawDuration : Except Unit Int

/-- The method `Scanner.scan`: prime the pipeline (`_setup`), collect tags, query
the duration, and — via the `try/finally` — reset the pipeline on every
path, returning `(tags, duration)` or propagating the `ScannerError`.
The second component is the trace of pipeline side effects. -/
def scan (timeout_ms : Nat) (env : PipelineEnv) :
    Except String (TagMap × Option Int) × List PipelineAction :=
  match _collect timeout_ms env.msgs with
  | .ok tags => (.ok (tags, _query_duration env.rawDuration), [.setup, .reset])
  | .error e => (.error e, [.setup, .reset])

/-- Modelled from the spec: `mopidy.models.Artist` is not under `src/`;
per the spec an Artist has a name and an optional globally-unique
identifier, each defaulting to absent. -/
structure Artist where
  name : Option TagValue := none
  musicbrainz_id : Option TagValue := none
deriving DecidableEq, Repr

/-- Indexing `xs[i]` on a Python list: `IndexError` when out of range. -/
def pyIndex {α : Type} (xs : List α) (i : Nat) : Except PyError α :=
  match xs.get? i with
  | some a => .ok a
  | none => .error .indexError

/-- The test `artist_id in tags` where `artist_id` is a string or `None`:
`None` is never a key of a string-keyed dictionary. -/
def keyIn (artist_id : Option String) (tags : TagMap) : Bool :=
  match artist_id with
  | some k => tags.hasKey k
  | none => false

/-- The helper `_artists(tags, artist_name, artist_id=None)`: extract artists from
the tag dictionary.  No (or an empty) name list yields `None`; exactly
one name with the id key present yields one artist carrying the first
id value; otherwise one artist per name, without ids. -/
def _artists (tags : TagMap) (artist_name : String) (artist_id : Option String) :
    Except PyError (Option (List Artist)) :=
  let names := tags.getD artist_name []
  if names.isEmpty then .ok none
  else if names.length == 1 && keyIn artist_id tags then do
    let nm ← pyIndex names 0
    let mbid ← pyIndex (tags.getD (artist_id.getD "") []) 0
    .ok (some [{ name := some nm, musicbrainz_id := some mbid }])
  else .ok (some (names.map fun nm => { name := some nm }))

/-- The string join `sep.join(vs)`: joining raises `TypeError` unless every element is
a string. -/
def pyJoin (sep : String) (vs : List TagValue) : Except PyError String :=
  if vs.all (fun v => match v with | .str _ => true | _ => false) then
    .ok (String.intercalate sep (vs.map fun v =>
      match v with | .str s => s | _ => ""))
  else .error .typeError

/-- First-value access `tags.get(k, [None])[0]`: the first value of the sequence at the key,
`None` when the key is absent, `IndexError` when the key maps to an
empty list. -/
def firstOrNone (tags : TagMap) (k : String) : Except PyError (Option TagValue) :=
  match tags.find? k with
  | none => .ok none
  | some vs =>
    match vs.head? with
    | some v => .ok (some v)
    | none => .error .indexError

/-- GStreamer 0.10 tag name constants used by `tags_to_track`. -/
def TAG_COMPOSER : String := "composer"

def TAG_PERFORMER : String := "performer"

def TAG_ARTIST : String := "artist"

def TAG_ALBUM_ARTIST : String := "album-artist"

def TAG_GENRE : String := "genre"

def TAG_TITLE : String := "title"

def TAG_ORGANIZATION : String := "organization"

def TAG_LOCATION : String := "location"

def TAG_COPYRIGHT : String := "copyright"

def TAG_TRACK_NUMBER : String := "track-number"

def TAG_ALBUM_VOLUME_NUMBER : String := "album-disc-number"

def TAG_BITRATE : String := "bitrate"

def TAG_ALBUM : String := "album"

def TAG_TRACK_COUNT : String := "track-count"

def TAG_ALBUM_VOLUME_COUNT : String := "album-disc-count"

def TAG_DATE : String := "date"

/-- Modelled from the spec: `mopidy.models.Album` is not under `src/`;
per the spec an Album has a name, track and disc counts, an optional
identifier and a list of artists, each defaulting to absent/empty. -/
structure Album where
  name : Option TagValue := none
  num_tracks : Option TagValue := none
  num_discs : Option TagValue := none
  artists : List Artist := []
  musicbrainz_id : Option TagValue := none
deriving DecidableEq, Repr

/-- Modelled from the spec: `mopidy.models.Track` is not under `src/`;
per the spec all Track fields are optional, with the own defaults of the domain
model (absent scalars, empty artist lists) applying to omitted
fields. -/
structure Track where
  name : Option String := none
  genre : Option String := none
  comment : Option String := none
  track_no : Option TagValue := none
  disc_no : Option TagValue := none
  bitrate : Option TagValue := none
  musicbrainz_id : Option TagValue := none
  date : Option String := none
  composers : List Artist := []
  performers : List Artist := []
  artists : List Artist := []
  album : Option Album := none
deriving DecidableEq, Repr

/-- A value stored in the `track_kwargs` / `album_kwargs` dictionaries
of `tags_to_track`: `pyNone` is the Python `None` value. -/
inductive KwargValue where
  | pyNone
  | artists (l : List Artist)
  | str (s : String)
  | tag (v : TagValue)
  | album (a : Album)
deriving DecidableEq, Repr

/-- Python truthiness of a kwargs value: `None`, empty lists and empty
strings are falsy; record instances are truthy. -/
def KwargValue.truthy : KwargValue → Bool
  | .pyNone => false
  | .artists l => !l.isEmpty
  | .str s => !s.isEmpty
  | .tag v => v.truthy
  | .album _ => true

/-- The kwargs value for an `_artists` result (`None` or a list). -/
def ofArtists : Option (List Artist) → KwargValue
  | none => .pyNone
  | some l => .artists l

/-- The kwargs value for a `tags.get(k, [None])[0]` result. -/
def ofTag : Option TagValue → KwargValue
  | none => .pyNone
  | some v => .tag v

/-- First-match lookup in a kwargs dictionary. -/
def kwLookup : List (String × KwargValue) → String → Option KwargValue
  | [], _ => none
  | (k, v) :: rest, key => if k = key then some v else kwLookup rest key

/-- The dictionary comprehension clearing out empty values: keep only
entries whose value is truthy. -/
def kwFilter (kw : List (String × KwargValue)) : List (String × KwargValue) :=
  kw.filter (fun p => p.2.truthy)

/-- Modelled from the spec: the `Album(**album_kwargs)` constructor of
`mopidy.models` (not under `src/`); fields missing from the kwargs take
the defaults of the domain model. -/
def Album.ofKwargs (kw : List (String × KwargValue)) : Album :=
  { name := match kwLookup kw "name" with | some (.tag v) => some v | _ => none
    num_tracks := match kwLookup kw "num_tracks" with | some (.tag v) => some v | _ => none
    num_discs := match kwLookup kw "num_discs" with | some (.tag v) => some v | _ => none
    artists := match kwLookup kw "artists" with | some (.artists l) => l | _ => []
    musicbrainz_id :=
      match kwLookup kw "musicbrainz_id" with | some (.tag v) => some v | _ => none }

/-- Modelled from the spec: the `Track(**track_kwargs)` constructor of
`mopidy.models` (not under `src/`); fields missing from the kwargs take
the defaults of the domain model. -/
def Track.ofKwargs (kw : List (String × KwargValue)) : Track :=
  { name := match kwLookup kw "name" with | some (.str s) => some s | _ => none
    genre := match kwLookup kw "genre" with | some (.str s) => some s | _ => none
    comment := match kwLookup kw "comment" with | some (.str s) => some s | _ => none
    track_no := match kwLookup kw "track_no" with | some (.tag v) => some v | _ => none
    disc_no := match kwLookup kw "disc_no" with | some (.tag v) => some v | _ => none
    bitrate := match kwLookup kw "bitrate" with | some (.tag v) => some v | _ => none
    musicbrainz_id :=
      match kwLookup kw "musicbrainz_id" with | some (.tag v) => some v | _ => none
    date := match kwLookup kw "date" with | some (.str s) => some s | _ => none
    composers := match kwLookup kw "composers" with | some (.artists l) => l | _ => []
    performers := match kwLookup kw "performers" with | some (.artists l) => l | _ => []
    artists := match kwLookup kw "artists" with | some (.artists l) => l | _ => []
    album := match kwLookup kw "album" with | some (.album a) => some a | _ => none }

/-- The `date` handling of `tags_to_track`: when the date tag is present
with a truthy first value, format it as ISO-8601; the guard
`tags.get(gst.TAG_DATE) and tags.get(gst.TAG_DATE)[0]` keeps the `[0]`
access in bounds. -/
def dateField (tags : TagMap) : Except PyError (Option String) :=
  match tags.find? TAG_DATE with
  | none => .ok none
  | some vs =>
    match vs.head? with
    | none => .ok none
    | some v => if v.truthy then (TagValue.isoformat v).map some else .ok none

/-- The fallback pattern of `tags_to_track`: keep the already-joined
string unless it is empty, in which case join the fallback values
instead. -/
def orJoin (primary : String) (fallback : List TagValue) : Except PyError String :=
  if primary.isEmpty then pyJoin "; " fallback else Except.ok primary

/-- The conditional `date` entry of `track_kwargs`: present exactly when
the guarded isoformat assignment ran. -/
def dateEntry : Option String → List (String × KwargValue)
  | some d => [("date", KwargValue.str d)]
  | none => []

/-- The function `tags_to_track`: build the `track_kwargs` and `album_kwargs`
dictionaries in source order, clear out falsy values, construct the
Album, attach it under the `album` key and construct the Track. -/
def tags_to_track (tags : TagMap) : Except PyError Track := do
  let composers ← _artists tags TAG_COMPOSER none
  let performers ← _artists tags TAG_PERFORMER none
  let artists ← _artists tags TAG_ARTIST (some "musicbrainz-artistid")
  let albumArtists ← _artists tags TAG_ALBUM_ARTIST (some "musicbrainz-albumartistid")
  let genre ← pyJoin "; " (tags.getD TAG_GENRE [])
  let title ← pyJoin "; " (tags.getD TAG_TITLE [])
  let name ← orJoin title (tags.getD TAG_ORGANIZATION [])
  let comment0 ← pyJoin "; " (tags.getD "comment" [])
  let comment1 ← orJoin comment0 (tags.getD TAG_LOCATION [])
  let comment ← orJoin comment1 (tags.getD TAG_COPYRIGHT [])
  let track_no ← firstOrNone tags TAG_TRACK_NUMBER
  let disc_no ← firstOrNone tags TAG_ALBUM_VOLUME_NUMBER
  let bitrate ← firstOrNone tags TAG_BITRATE
  let mb_trackid ← firstOrNone tags "musicbrainz-trackid"
  let album_name ← firstOrNone tags TAG_ALBUM
  let num_tracks ← firstOrNone tags TAG_TRACK_COUNT
  let num_discs ← firstOrNone tags TAG_ALBUM_VOLUME_COUNT
  let mb_albumid ← firstOrNone tags "musicbrainz-albumid"
  let date ← dateField tags
  let track_kwargs : List (String × KwargValue) :=
    [("composers", ofArtists composers),
     ("performers", ofArtists performers),
     ("artists", ofArtists artists),
     ("genre", .str genre),
     ("name", .str name),
     ("comment", .str comment),
     ("track_no", ofTag track_no),
     ("disc_no", ofTag disc_no),
     ("bitrate", ofTag bitrate),
     ("musicbrainz_id", ofTag mb_trackid)] ++ dateEntry date
  let album_kwargs : List (String × KwargValue) :=
    [("artists", ofArtists albumArtists),
     ("name", ofTag album_name),
     ("num_tracks", ofTag num_tracks),
     ("num_discs", ofTag num_discs),
     ("musicbrainz_id", ofTag mb_albumid)]
  let album := Album.ofKwargs (kwFilter album_kwargs)
  .ok (Track.ofKwargs (kwFilter track_kwargs ++ [("album", .album album)]))

/-- The tags accumulated by the polling loop over a run of non-terminal
messages: each tag message merges its dictionary, everything else leaves
the accumulator alone. -/
def collectedTags (acc : TagMap) (msgs : List Message) : TagMap :=
  msgs.foldl (fun a m => match m with | .tag tl => a.update tl | _ => a) acc

/-- The value sequence carried by the last tag list mentioning a given
name, if any (the claimed last-write-wins reading of a tag event
sequence). -/
def lastMention (tls : List TagMap) (k : String) : Option (List TagValue) :=
  match tls with
  | [] => none
  | tl :: rest =>
    match lastMention rest k with
    | some v => some v
    | none => TagMap.find? tl k

/-- The total value of the string join on a list of string tag values
(what `pyJoin` returns whenever it does not raise). -/
def strJoin (vs : List TagValue) : String :=
  String.intercalate "; " (vs.map fun v => match v with | .str s => s | _ => "")

/-- No IndexError: the computation does not raise an out-of-range list
access. -/
def noIndex {α : Type} (x : Except PyError α) : Prop :=
  x ≠ Except.error PyError.indexError

theorem collectLoop_append (t : Nat) (pre rest : List Message) (acc : TagMap)
    (h : ∀ m ∈ pre, m.isTerminal = false) :
    collectLoop t (pre ++ rest) acc = collectLoop t rest (collectedTags acc pre) := by
  induction pre generalizing acc with
  | nil => simp [collectedTags]
  | cons m pre ih =>
    have hm : m.isTerminal = false := h m (List.mem_cons_self m pre)
    have hpre : ∀ x ∈ pre, x.isTerminal = false := fun x hx => h x (List.mem_cons_of_mem m hx)
    cases m with
    | error e => simp [Message.isTerminal] at hm
    | eos => simp [Message.isTerminal] at hm
    | asyncDone b =>
      cases b with
      | false => simpa [collectLoop, collectedTags] using ih acc hpre
      | true => simp [Message.isTerminal] at hm
    | tag tl => simpa [collectLoop, collectedTags] using ih (acc.update tl) hpre
    | other => simpa [collectLoop, collectedTags] using ih acc hpre

/-- C3: when no terminal event is observed within the timeout, `scan`
raises a ScannerError whose message mentions the configured timeout
value, and on every execution path `scan` performs exactly one reset,
as the last pipeline action before returning or propagating. -/
theorem scan_timeout_and_reset (t : Nat) (env : PipelineEnv) :
    ((∀ m ∈ env.msgs, m.isTerminal = false) →
      (scan t env).1 = Except.error ("Timeout after " ++ toString t ++ "ms")
      ∧ ∃ pre post : String,
          "Timeout after " ++ toString t ++ "ms" = pre ++ toString t ++ post)
    ∧ (scan t env).2.count PipelineAction.reset = 1
    ∧ (scan t env).2.getLast? = some PipelineAction.reset := by
  refine ⟨fun h => ?_, ?_, ?_⟩
  · have hc : _collect t env.msgs =
        Except.error ("Timeout after " ++ toString t ++ "ms") := by
      have h0 := collectLoop_append t env.msgs [] [] h
      simpa [_collect, collectLoop] using h0
    exact ⟨by simp [scan, hc], "Timeout after ", "ms", rfl⟩
  · cases hc : _collect t env.msgs <;> simp [scan, hc]
  · cases hc : _collect t env.msgs <;> simp [scan, hc]

/-- Witness for C3 at a concrete environment with only a tag message and
an ignored message on the bus. -/
theorem scan_timeout_and_reset_witness :
    (scan 1000 ⟨[Message.tag [("a", [TagValue.str "x"])], Message.other],
        Except.error ()⟩).1
      = Except.error ("Timeout after " ++ toString 1000 ++ "ms")
    ∧ (scan 1000 ⟨[Message.tag [("a", [TagValue.str "x"])], Message.other],
        Except.error ()⟩).2.count PipelineAction.reset = 1 :=
  ⟨((scan_timeout_and_reset 1000 _).1 (by decide)).1,
   (scan_timeout_and_reset 1000 _).2.1⟩

/-- C4: the first error event popped terminates the scan with a
ScannerError carrying the locale-decoded error text, whatever tags were
collected before it and whatever events are still pending after it. -/
theorem error_event_terminates (t : Nat) (pre post : List Message) (e : String)
    (hpre : ∀ m ∈ pre, m.isTerminal = false) :
    _collect t (pre ++ Message.error e :: post) = Except.error (locale_decode e)
    ∧ ∀ raw, (scan t ⟨pre ++ Message.error e :: post, raw⟩).1 =
        Except.error (locale_decode e) := by
  have hc : _collect t (pre ++ Message.error e :: post) =
      Except.error (locale_decode e) := by
    have h0 := collectLoop_append t pre (Message.error e :: post) [] hpre
    simpa [_collect, collectLoop] using h0
  exact ⟨hc, fun raw => by simp [scan, hc]⟩

/-- Witness for C4: tags already collected, and an end-of-stream event
still pending behind the error. -/
theorem error_event_terminates_witness :
    _collect 1000 ([Message.tag [("title", [TagValue.str "T"])]] ++
        Message.error "decode failed" :: [Message.eos])
      = Except.error (locale_decode "decode failed") :=
  (error_event_terminates 1000 [Message.tag [("title", [TagValue.str "T"])]]
    [Message.eos] "decode failed" (by decide)).1

/-- C5: an async-done event from a sub-element is ignored and polling
continues; an async-done event from the top-level pipeline, or an
end-of-stream event, terminates polling successfully with the tags
collected so far. -/
theorem async_done_and_eos (t : Nat) (pre post : List Message)
    (hpre : ∀ m ∈ pre, m.isTerminal = false) :
    _collect t (pre ++ Message.asyncDone false :: post) = _collect t (pre ++ post)
    ∧ _collect t (pre ++ Message.asyncDone true :: post) =
        Except.ok (collectedTags [] pre)
    ∧ _collect t (pre ++ Message.eos :: post) = Except.ok (collectedTags [] pre) := by
  have h1 := collectLoop_append t pre (Message.asyncDone false :: post) [] hpre
  have h2 := collectLoop_append t pre (Message.asyncDone true :: post) [] hpre
  have h3 := collectLoop_append t pre (Message.eos :: post) [] hpre
  have h4 := collectLoop_append t pre post [] hpre
  refine ⟨?_, ?_, ?_⟩ <;> simp [_collect] at h1 h2 h3 h4 ⊢ <;>
    simp [h1, h2, h3, h4, collectLoop]

/-- Witness for C5 at a concrete event sequence carrying one tag
message before the probed event and one after it. -/
theorem async_done_and_eos_witness :
    _collect 1000 ([Message.tag [("a", [TagValue.str "1"])]] ++
        Message.asyncDone false :: [Message.tag [("b", [TagValue.str "2"])], Message.eos])
      = _collect 1000 ([Message.tag [("a", [TagValue.str "1"])]] ++
          [Message.tag [("b", [TagValue.str "2"])], Message.eos])
    ∧ _collect 1000 ([Message.tag [("a", [TagValue.str "1"])]] ++
        Message.asyncDone true :: [Message.tag [("b", [TagValue.str "2"])]])
      = Except.ok (collectedTags [] [Message.tag [("a", [TagValue.str "1"])]]) :=
  ⟨(async_done_and_eos 1000 [Message.tag [("a", [TagValue.str "1"])]]
      [Message.tag [("b", [TagValue.str "2"])], Message.eos] (by decide)).1,
   (async_done_and_eos 1000 [Message.tag [("a", [TagValue.str "1"])]]
      [Message.tag [("b", [TagValue.str "2"])]] (by decide)).2.1⟩

/-- C6: the duration query degrades a failed query or a negative raw
value to an unknown duration, and otherwise truncates the raw
native-time value to whole milliseconds; it is a total function and so
never raises to its caller. -/
theorem query_duration_cases :
    _query_duration (Except.error ()) = none
    ∧ (∀ d : Int, d < 0 → _query_duration (Except.ok d) = none)
    ∧ (∀ d : Int, 0 ≤ d →
        _query_duration (Except.ok d) = some (d / MSECOND)
        ∧ MSECOND * (d / MSECOND) ≤ d ∧ d < MSECOND * (d / MSECOND + 1)) := by
  refine ⟨rfl, fun d hd => by simp [_query_duration, hd], fun d hd => ?_⟩
  have h1 : ¬ d < 0 := by omega
  refine ⟨by simp [_query_duration, h1], ?_, ?_⟩ <;>
    · simp only [MSECOND]
      omega

/-- Witness for C6: a failed query, the raw value -1, and a raw value
of 2.5 million nanoseconds, which truncates to 2 ms. -/
theorem query_duration_cases_witness :
    _query_duration (Except.ok (-1)) = none
    ∧ _query_duration (Except.ok 2500000) = some 2 := by
  refine ⟨query_duration_cases.2.1 (-1) (by decide), ?_⟩
  have h := (query_duration_cases.2.2 2500000 (by decide)).1
  simpa [MSECOND] using h


theorem find?_setKey (m : TagMap) (k : String) (v : List TagValue) (k2 : String) :
    TagMap.find? (m.setKey k v) k2 = if k2 = k then some v else TagMap.find? m k2 := by
  induction m with
  | nil =>
    by_cases h2 : k2 = k
    · subst h2; simp [TagMap.setKey, TagMap.find?]
    · simp [TagMap.setKey, TagMap.find?, h2, Ne.symm h2]
  | cons p m ih =>
    obtain ⟨k0, v0⟩ := p
    by_cases h0 : k0 = k
    · subst h0
      by_cases h2 : k2 = k0
      · subst h2; simp [TagMap.setKey, TagMap.find?]
      · simp [TagMap.setKey, TagMap.find?, h2, Ne.symm h2]
    · by_cases h2 : k2 = k
      · subst h2
        simp [TagMap.setKey, TagMap.find?, h0, ih]
      · simp [TagMap.setKey, TagMap.find?, h0, ih, h2]

theorem find?_eq_none_of_not_mem (m : TagMap) (k : String)
    (h : k ∉ m.map Prod.fst) :
    TagMap.find? m k = none := by
  induction m with
  | nil => rfl
  | cons p m ih =>
    obtain ⟨k0, v0⟩ := p
    simp only [List.map_cons, List.mem_cons] at h
    push_neg at h
    have h1 : ¬ k0 = k := fun hh => h.1 hh.symm
    simp [TagMap.find?, h1, ih h.2]

theorem find?_update (m tl : TagMap) (k : String) (h : keysNodup tl) :
    TagMap.find? (m.update tl) k =
      match TagMap.find? tl k with
      | some v => some v
      | none => TagMap.find? m k := by
  induction tl generalizing m with
  | nil => simp [TagMap.update, TagMap.find?]
  | cons p tl ih =>
    obtain ⟨k0, v0⟩ := p
    simp only [keysNodup, List.map_cons, List.nodup_cons] at h
    have hk0 : k0 ∉ tl.map Prod.fst := h.1
    have hnd : keysNodup tl := h.2
    have step : TagMap.update m ((k0, v0) :: tl) = TagMap.update (m.setKey k0 v0) tl := by
      simp [TagMap.update]
    rw [step, ih _ hnd]
    by_cases hkk : k = k0
    · subst hkk
      have htl : TagMap.find? tl k = none := find?_eq_none_of_not_mem tl k hk0
      simp [htl, TagMap.find?, find?_setKey]
    · have h1 : ¬ k0 = k := fun hh => hkk hh.symm
      cases hf : TagMap.find? tl k <;>
        simp [hf, TagMap.find?, find?_setKey, hkk, h1]

theorem foldl_update_find? (tls : List TagMap) (m : TagMap) (k : String)
    (h : ∀ tl ∈ tls, keysNodup tl) :
    TagMap.find? (tls.foldl TagMap.update m) k =
      match lastMention tls k with
      | some v => some v
      | none => TagMap.find? m k := by
  induction tls generalizing m with
  | nil => simp [lastMention]
  | cons tl tls ih =>
    rw [List.foldl_cons, ih _ (fun x hx => h x (List.mem_cons_of_mem tl hx))]
    have hupd := find?_update m tl k (h tl (List.mem_cons_self tl tls))
    cases hlm : lastMention tls k with
    | some v => simp [lastMention, hlm]
    | none =>
      cases htf : TagMap.find? tl k <;> simp [lastMention, hlm, htf, hupd]

/-- C2: polling a sequence of tag events followed by a terminal event
succeeds with a tag dictionary in which every tag name holds exactly
the value sequence of the last tag event mentioning it: repeated events
replace, never merge. -/
theorem collect_last_write_wins (t : Nat) (tls : List TagMap) (term : Message)
    (hterm : term = Message.eos ∨ term = Message.asyncDone true)
    (hnd : ∀ tl ∈ tls, keysNodup tl) :
    _collect t (tls.map Message.tag ++ [term]) =
      Except.ok (tls.foldl TagMap.update [])
    ∧ ∀ k, TagMap.find? (tls.foldl TagMap.update []) k = lastMention tls k := by
  constructor
  · have hpre : ∀ m ∈ tls.map Message.tag, m.isTerminal = false := by
      intro m hm
      obtain ⟨tl, _, rfl⟩ := List.mem_map.mp hm
      rfl
    have h := collectLoop_append t (tls.map Message.tag) [term] [] hpre
    have hct : collectedTags [] (tls.map Message.tag) = tls.foldl TagMap.update [] := by
      simp [collectedTags, List.foldl_map]
    rcases hterm with rfl | rfl <;> simp [_collect, collectLoop] at h ⊢ <;>
      rw [h, hct]
  · intro k
    have h := foldl_update_find? tls [] k hnd
    cases hlm : lastMention tls k <;> simp [hlm, TagMap.find?] at h ⊢ <;> exact h

/-- Witness for C2: two tag events for the same name; the second fully
replaces the sequence of the first, and an untouched name survives. -/
theorem collect_last_write_wins_witness :
    _collect 1000 [Message.tag [("a", [TagValue.str "1"]), ("b", [TagValue.int 5])],
        Message.tag [("a", [TagValue.str "2", TagValue.str "3"])], Message.eos]
      = Except.ok [("a", [TagValue.str "2", TagValue.str "3"]), ("b", [TagValue.int 5])]
    ∧ TagMap.find? ([[("a", [TagValue.str "1"]), ("b", [TagValue.int 5])],
          [("a", [TagValue.str "2", TagValue.str "3"])]].foldl TagMap.update []) "a"
      = lastMention [[("a", [TagValue.str "1"]), ("b", [TagValue.int 5])],
          [("a", [TagValue.str "2", TagValue.str "3"])]] "a" :=
  ⟨((collect_last_write_wins 1000
      [[("a", [TagValue.str "1"]), ("b", [TagValue.int 5])],
       [("a", [TagValue.str "2", TagValue.str "3"])]]
      Message.eos (Or.inl rfl) (by decide)).1).trans (by rfl),
   (collect_last_write_wins 1000
      [[("a", [TagValue.str "1"]), ("b", [TagValue.int 5])],
       [("a", [TagValue.str "2", TagValue.str "3"])]]
      Message.eos (Or.inl rfl) (by decide)).2 "a"⟩

theorem mem_of_find? (m : TagMap) (k : String) (vs : List TagValue)
    (h : TagMap.find? m k = some vs) : (k, vs) ∈ m := by
  induction m with
  | nil => exact absurd h (by simp [TagMap.find?])
  | cons p m ih =>
    obtain ⟨k0, v0⟩ := p
    by_cases h0 : k0 = k
    · subst h0
      have h2 : some v0 = some vs := by simpa [TagMap.find?] using h
      simp [(Option.some.injEq _ _).mp h2]
    · simp only [TagMap.find?, h0, if_false] at h
      exact List.mem_cons_of_mem _ (ih h)

/-- C1: the artist-extraction helper yields no artists when the name
key is absent or empty; exactly one artist carrying the first id value
when there is a single name and the id key is present; and one
id-less artist per name otherwise, even when a matching-length id list
exists. -/
theorem artists_branches (tags : TagMap) (nameKey : String) (idKey : Option String)
    (hne : ∀ p ∈ tags, Prod.snd p ≠ ([] : List TagValue)) :
    (TagMap.getD tags nameKey [] = [] → _artists tags nameKey idKey = Except.ok none)
    ∧ (∀ idk ids nm, TagMap.getD tags nameKey [] = [nm] → idKey = some idk →
        TagMap.find? tags idk = some ids →
        ∃ i, ids.head? = some i ∧
          _artists tags nameKey idKey =
            Except.ok (some [{ name := some nm, musicbrainz_id := some i }]))
    ∧ (TagMap.getD tags nameKey [] ≠ [] →
        ¬((TagMap.getD tags nameKey []).length = 1 ∧ keyIn idKey tags = true) →
        _artists tags nameKey idKey =
          Except.ok (some ((TagMap.getD tags nameKey []).map
            fun nm => { name := some nm }))) := by
  refine ⟨fun h => ?_, fun idk ids nm hnm hid hids => ?_, fun h1 h2 => ?_⟩
  · unfold _artists
    simp [h]
  · subst hid
    obtain ⟨i, is, rfl⟩ : ∃ i is, ids = i :: is := by
      cases ids with
      | nil => exact absurd rfl (hne (idk, []) (mem_of_find? tags idk [] hids))
      | cons i is => exact ⟨i, is, rfl⟩
    have hfind : TagMap.find? tags nameKey = some [nm] := by
      unfold TagMap.getD at hnm
      cases hf : TagMap.find? tags nameKey with
      | none => rw [hf] at hnm; simp at hnm
      | some vs => rw [hf] at hnm; simp at hnm; rw [hnm]
    refine ⟨i, rfl, ?_⟩
    unfold _artists TagMap.getD
    simp [hfind, keyIn, TagMap.hasKey, hids, pyIndex, Bind.bind, Except.bind]
  · obtain ⟨x, xs, hx⟩ : ∃ x xs, TagMap.getD tags nameKey [] = x :: xs := by
      cases hl : TagMap.getD tags nameKey [] with
      | nil => exact absurd hl h1
      | cons x xs => exact ⟨x, xs, rfl⟩
    have hcond : ((TagMap.getD tags nameKey []).length == 1 && keyIn idKey tags) = false := by
      by_cases hl : (TagMap.getD tags nameKey []).length = 1
      · by_cases hk : keyIn idKey tags = true
        · exact absurd ⟨hl, hk⟩ h2
        · simp [hk]
      · simp [hl]
    rw [hx] at hcond
    unfold _artists
    simp only [hx, List.isEmpty_cons, hcond, Bool.false_eq_true, if_false]

/-- Witness for C1: a single name with a two-element id list uses only
the first id value; two names with a matching-length id list get no
ids; an empty name list yields no artists. -/
theorem artists_branches_witness :
    _artists [("artist", [TagValue.str "Jane"]),
        ("mbid", [TagValue.str "id1", TagValue.str "id2"])] "artist" (some "mbid")
      = Except.ok (some
          [{ name := some (TagValue.str "Jane"),
             musicbrainz_id := some (TagValue.str "id1") }])
    ∧ _artists [("artist", [TagValue.str "A", TagValue.str "B"]),
        ("mbid", [TagValue.str "i1", TagValue.str "i2"])] "artist" (some "mbid")
      = Except.ok (some [{ name := some (TagValue.str "A") },
          { name := some (TagValue.str "B") }])
    ∧ _artists [("title", [TagValue.str "T"])] "artist" (some "mbid")
      = Except.ok none := by
  refine ⟨?_, ?_, ?_⟩
  · obtain ⟨i, hi, h⟩ :=
      (artists_branches [("artist", [TagValue.str "Jane"]),
          ("mbid", [TagValue.str "id1", TagValue.str "id2"])] "artist" (some "mbid")
        (by decide)).2.1 "mbid" [TagValue.str "id1", TagValue.str "id2"]
        (TagValue.str "Jane") rfl rfl rfl
    simp only [List.head?] at hi
    obtain rfl := (Option.some.injEq _ _).mp hi
    exact h
  · exact ((artists_branches [("artist", [TagValue.str "A", TagValue.str "B"]),
        ("mbid", [TagValue.str "i1", TagValue.str "i2"])] "artist" (some "mbid")
      (by decide)).2.2 (by decide) (by decide)).trans (by rfl)
  · exact (artists_branches [("title", [TagValue.str "T"])] "artist" (some "mbid")
      (by decide)).1 rfl

theorem bindE_ok {α β : Type} {x : Except PyError α} {f : α → Except PyError β} {b : β}
    (h : x >>= f = Except.ok b) : ∃ a, x = Except.ok a ∧ f a = Except.ok b := by
  cases x with
  | ok a => exact ⟨a, rfl, by simpa [Bind.bind, Except.bind] using h⟩
  | error e =>
    exfalso
    simp [Bind.bind, Except.bind] at h

theorem kwLookup_append (kw kw2 : List (String × KwargValue)) (k : String) :
    kwLookup (kw ++ kw2) k =
      match kwLookup kw k with
      | some v => some v
      | none => kwLookup kw2 k := by
  induction kw with
  | nil => simp [kwLookup]
  | cons p kw ih =>
    obtain ⟨k0, v0⟩ := p
    by_cases h : k0 = k <;> simp [kwLookup, h, ih]

theorem kwFilter_append (kw kw2 : List (String × KwargValue)) :
    kwFilter (kw ++ kw2) = kwFilter kw ++ kwFilter kw2 := by
  simp [kwFilter]

theorem kwFilter_cons (p : String × KwargValue) (kw : List (String × KwargValue)) :
    kwFilter (p :: kw) = if p.2.truthy then p :: kwFilter kw else kwFilter kw := by
  simp [kwFilter, List.filter_cons]

theorem kwLookup_filter_truthy (kw : List (String × KwargValue)) (k : String)
    (v : KwargValue) (h : kwLookup (kwFilter kw) k = some v) : v.truthy = true := by
  induction kw with
  | nil => exact absurd h (by simp [kwFilter, kwLookup])
  | cons p kw ih =>
    rw [kwFilter_cons] at h
    by_cases ht : p.2.truthy = true
    · rw [if_pos ht] at h
      obtain ⟨k0, v0⟩ := p
      by_cases hk : k0 = k
      · rw [kwLookup, if_pos hk] at h
        rw [← (Option.some.injEq _ _).mp h]
        exact ht
      · rw [kwLookup, if_neg hk] at h
        exact ih h
    · rw [if_neg ht] at h
      exact ih h

theorem kwLookup_eq_none_of_not_mem (kw : List (String × KwargValue)) (k : String)
    (h : k ∉ kw.map Prod.fst) : kwLookup kw k = none := by
  induction kw with
  | nil => rfl
  | cons p kw ih =>
    obtain ⟨k0, v0⟩ := p
    simp only [List.map_cons, List.mem_cons] at h
    push_neg at h
    have h1 : ¬ k0 = k := fun hh => h.1 hh.symm
    rw [kwLookup, if_neg h1]
    exact ih h.2

theorem kwLookup_filter_none (kw : List (String × KwargValue)) (k : String)
    (h : kwLookup kw k = none) : kwLookup (kwFilter kw) k = none := by
  induction kw with
  | nil => rfl
  | cons p kw ih =>
    obtain ⟨k0, v0⟩ := p
    by_cases hk : k0 = k
    · rw [kwLookup, if_pos hk] at h
      cases h
    · rw [kwLookup, if_neg hk] at h
      rw [kwFilter_cons]
      by_cases ht : ((k0, v0).snd).truthy = true
      · rw [if_pos ht, kwLookup, if_neg hk]
        exact ih h
      · rw [if_neg ht]
        exact ih h

theorem kwLookup_filter_of_nodup (kw : List (String × KwargValue)) (k : String)
    (hnd : (kw.map Prod.fst).Nodup) :
    kwLookup (kwFilter kw) k =
      match kwLookup kw k with
      | some v => if v.truthy then some v else none
      | none => none := by
  induction kw with
  | nil => simp [kwFilter, kwLookup]
  | cons p kw ih =>
    obtain ⟨k0, v0⟩ := p
    simp only [List.map_cons, List.nodup_cons] at hnd
    have hk0 : k0 ∉ kw.map Prod.fst := hnd.1
    rw [kwFilter_cons]
    by_cases hk : k0 = k
    · subst hk
      rw [kwLookup, if_pos rfl]
      by_cases ht : ((k0, v0).snd).truthy = true
      · rw [if_pos ht, kwLookup, if_pos rfl]
        simp only at ht
        simp [ht]
      · rw [if_neg ht]
        have hnone : kwLookup kw k0 = none := kwLookup_eq_none_of_not_mem kw k0 hk0
        rw [kwLookup_filter_none kw k0 hnone]
        simp only at ht
        simp [ht]
    · rw [kwLookup, if_neg hk]
      by_cases ht : ((k0, v0).snd).truthy = true
      · rw [if_pos ht, kwLookup, if_neg hk]
        exact ih hnd.2
      · rw [if_neg ht]
        exact ih hnd.2

theorem pyJoin_ok (vs : List TagValue) (s : String)
    (h : pyJoin "; " vs = Except.ok s) : s = strJoin vs := by
  unfold pyJoin at h
  by_cases hall : vs.all (fun v => match v with | .str _ => true | _ => false) = true
  · rw [if_pos hall] at h
    exact ((Except.ok.injEq _ _).mp h).symm
  · rw [if_neg hall] at h
    cases h

theorem Album_ofKwargs_spec (albumArtists : Option (List Artist))
    (album_name num_tracks num_discs mb_albumid : Option TagValue) :
    Album.ofKwargs (kwFilter
      [("artists", ofArtists albumArtists),
       ("name", ofTag album_name),
       ("num_tracks", ofTag num_tracks),
       ("num_discs", ofTag num_discs),
       ("musicbrainz_id", ofTag mb_albumid)]) =
    { name := match album_name with
        | some v => if v.truthy then some v else none
        | none => none,
      num_tracks := match num_tracks with
        | some v => if v.truthy then some v else none
        | none => none,
      num_discs := match num_discs with
        | some v => if v.truthy then some v else none
        | none => none,
      artists := match albumArtists with
        | some l => if l.isEmpty then [] else l
        | none => [],
      musicbrainz_id := match mb_albumid with
        | some v => if v.truthy then some v else none
        | none => none } := by
  have hnd : (([("artists", ofArtists albumArtists),
       ("name", ofTag album_name),
       ("num_tracks", ofTag num_tracks),
       ("num_discs", ofTag num_discs),
       ("musicbrainz_id", ofTag mb_albumid)]).map Prod.fst).Nodup := by
    simp only [List.map_cons, List.map_nil]
    decide
  have main : ∀ key val,
      kwLookup [("artists", ofArtists albumArtists),
       ("name", ofTag album_name),
       ("num_tracks", ofTag num_tracks),
       ("num_discs", ofTag num_discs),
       ("musicbrainz_id", ofTag mb_albumid)] key = some val →
      kwLookup (kwFilter
        [("artists", ofArtists albumArtists),
         ("name", ofTag album_name),
         ("num_tracks", ofTag num_tracks),
         ("num_discs", ofTag num_discs),
         ("musicbrainz_id", ofTag mb_albumid)]) key =
        if val.truthy then some val else none := by
    intro key val hv
    rw [kwLookup_filter_of_nodup _ key hnd, hv]
  simp only [Album.ofKwargs]
  rw [main "artists" (ofArtists albumArtists) rfl,
    main "name" (ofTag album_name) rfl,
    main "num_tracks" (ofTag num_tracks) rfl,
    main "num_discs" (ofTag num_discs) rfl,
    main "musicbrainz_id" (ofTag mb_albumid) rfl]
  simp only [Album.mk.injEq]
  refine ⟨?_, ?_, ?_, ?_, ?_⟩
  · rcases album_name with _ | v
    · simp [ofTag, KwargValue.truthy]
    · by_cases ht : v.truthy = true <;> simp [ofTag, KwargValue.truthy, ht]
  · rcases num_tracks with _ | v
    · simp [ofTag, KwargValue.truthy]
    · by_cases ht : v.truthy = true <;> simp [ofTag, KwargValue.truthy, ht]
  · rcases num_discs with _ | v
    · simp [ofTag, KwargValue.truthy]
    · by_cases ht : v.truthy = true <;> simp [ofTag, KwargValue.truthy, ht]
  · rcases albumArtists with _ | l
    · simp [ofArtists, KwargValue.truthy]
    · by_cases hl : l.isEmpty = true <;> simp [ofArtists, KwargValue.truthy, hl]
  · rcases mb_albumid with _ | v
    · simp [ofTag, KwargValue.truthy]
    · by_cases ht : v.truthy = true <;> simp [ofTag, KwargValue.truthy, ht]

theorem hdtk_lemma (date : Option String) (key : String) (hk : key ≠ "date") :
    kwLookup (dateEntry date) key = none := by
  rcases date with _ | d
  · rfl
  · rw [dateEntry, kwLookup, if_neg (Ne.symm hk), kwLookup]

theorem Track_ofKwargs_spec (composers performers artists : Option (List Artist))
    (genre name comment : String)
    (track_no disc_no bitrate mb_trackid : Option TagValue)
    (date : Option String) (al : Album) :
    Track.ofKwargs (kwFilter
        ([("composers", ofArtists composers),
          ("performers", ofArtists performers),
          ("artists", ofArtists artists),
          ("genre", KwargValue.str genre),
          ("name", KwargValue.str name),
          ("comment", KwargValue.str comment),
          ("track_no", ofTag track_no),
          ("disc_no", ofTag disc_no),
          ("bitrate", ofTag bitrate),
          ("musicbrainz_id", ofTag mb_trackid)] ++ dateEntry date)
        ++ [("album", KwargValue.album al)]) =
    { name := if name.isEmpty then none else some name,
      genre := if genre.isEmpty then none else some genre,
      comment := if comment.isEmpty then none else some comment,
      track_no := match track_no with
        | some v => if v.truthy then some v else none
        | none => none,
      disc_no := match disc_no with
        | some v => if v.truthy then some v else none
        | none => none,
      bitrate := match bitrate with
        | some v => if v.truthy then some v else none
        | none => none,
      musicbrainz_id := match mb_trackid with
        | some v => if v.truthy then some v else none
        | none => none,
      date := match date with
        | some d => if d.isEmpty then none else some d
        | none => none,
      composers := match composers with
        | some l => if l.isEmpty then [] else l
        | none => [],
      performers := match performers with
        | some l => if l.isEmpty then [] else l
        | none => [],
      artists := match artists with
        | some l => if l.isEmpty then [] else l
        | none => [],
      album := some al } := by
  have hnd : (([("composers", ofArtists composers),
          ("performers", ofArtists performers),
          ("artists", ofArtists artists),
          ("genre", KwargValue.str genre),
          ("name", KwargValue.str name),
          ("comment", KwargValue.str comment),
          ("track_no", ofTag track_no),
          ("disc_no", ofTag disc_no),
          ("bitrate", ofTag bitrate),
          ("musicbrainz_id", ofTag mb_trackid)]).map Prod.fst).Nodup := by
    simp only [List.map_cons, List.map_nil]
    decide
  have hmain : ∀ key val,
      kwLookup [("composers", ofArtists composers),
          ("performers", ofArtists performers),
          ("artists", ofArtists artists),
          ("genre", KwargValue.str genre),
          ("name", KwargValue.str name),
          ("comment", KwargValue.str comment),
          ("track_no", ofTag track_no),
          ("disc_no", ofTag disc_no),
          ("bitrate", ofTag bitrate),
          ("musicbrainz_id", ofTag mb_trackid)] key = some val →
      key ≠ "date" → kwLookup [("album", KwargValue.album al)] key = none →
      kwLookup (kwFilter
        ([("composers", ofArtists composers),
          ("performers", ofArtists performers),
          ("artists", ofArtists artists),
          ("genre", KwargValue.str genre),
          ("name", KwargValue.str name),
          ("comment", KwargValue.str comment),
          ("track_no", ofTag track_no),
          ("disc_no", ofTag disc_no),
          ("bitrate", ofTag bitrate),
          ("musicbrainz_id", ofTag mb_trackid)] ++ dateEntry date)
        ++ [("album", KwargValue.album al)]) key =
        if val.truthy then some val else none := by
    intro key val hv hkd halb
    rw [kwFilter_append, List.append_assoc, kwLookup_append,
      kwLookup_filter_of_nodup _ key hnd, hv]
    by_cases ht : val.truthy = true
    · simp [ht]
    · simp only [ht, Bool.false_eq_true, if_false]
      rw [kwLookup_append, kwLookup_filter_none _ _ (hdtk_lemma date key hkd), halb]
  have hdate : kwLookup (kwFilter
        ([("composers", ofArtists composers),
          ("performers", ofArtists performers),
          ("artists", ofArtists artists),
          ("genre", KwargValue.str genre),
          ("name", KwargValue.str name),
          ("comment", KwargValue.str comment),
          ("track_no", ofTag track_no),
          ("disc_no", ofTag disc_no),
          ("bitrate", ofTag bitrate),
          ("musicbrainz_id", ofTag mb_trackid)] ++ dateEntry date)
        ++ [("album", KwargValue.album al)]) "date" =
      (match date with
        | some d => if d.isEmpty then none else some (KwargValue.str d)
        | none => none) := by
    rw [kwFilter_append, List.append_assoc, kwLookup_append,
      kwLookup_filter_of_nodup _ _ hnd]
    have h10 : kwLookup [("composers", ofArtists composers),
          ("performers", ofArtists performers),
          ("artists", ofArtists artists),
          ("genre", KwargValue.str genre),
          ("name", KwargValue.str name),
          ("comment", KwargValue.str comment),
          ("track_no", ofTag track_no),
          ("disc_no", ofTag disc_no),
          ("bitrate", ofTag bitrate),
          ("musicbrainz_id", ofTag mb_trackid)] "date" = none := rfl
    rw [h10]
    rcases date with _ | d
    · rfl
    · rw [kwLookup_append, dateEntry, kwFilter_cons]
      by_cases hd : (KwargValue.str d).truthy = true
      · rw [if_pos hd]
        have : d.isEmpty = false := by
          simpa [KwargValue.truthy] using hd
        simp [kwLookup, kwFilter, this]
      · rw [if_neg hd]
        have : d.isEmpty = true := by
          simpa [KwargValue.truthy] using hd
        simp [kwLookup, kwFilter, this]
  have halbum : kwLookup (kwFilter
        ([("composers", ofArtists composers),
          ("performers", ofArtists performers),
          ("artists", ofArtists artists),
          ("genre", KwargValue.str genre),
          ("name", KwargValue.str name),
          ("comment", KwargValue.str comment),
          ("track_no", ofTag track_no),
          ("disc_no", ofTag disc_no),
          ("bitrate", ofTag bitrate),
          ("musicbrainz_id", ofTag mb_trackid)] ++ dateEntry date)
        ++ [("album", KwargValue.album al)]) "album" =
      some (KwargValue.album al) := by
    rw [kwFilter_append, List.append_assoc, kwLookup_append,
      kwLookup_filter_of_nodup _ _ hnd]
    have h10 : kwLookup [("composers", ofArtists composers),
          ("performers", ofArtists performers),
          ("artists", ofArtists artists),
          ("genre", KwargValue.str genre),
          ("name", KwargValue.str name),
          ("comment", KwargValue.str comment),
          ("track_no", ofTag track_no),
          ("disc_no", ofTag disc_no),
          ("bitrate", ofTag bitrate),
          ("musicbrainz_id", ofTag mb_trackid)] "album" = none := rfl
    rw [h10, kwLookup_append,
      kwLookup_filter_none _ _ (hdtk_lemma date "album" (by decide))]
    rfl
  simp only [Track.ofKwargs]
  rw [hmain "composers" (ofArtists composers) rfl (by decide) rfl,
    hmain "performers" (ofArtists performers) rfl (by decide) rfl,
    hmain "artists" (ofArtists artists) rfl (by decide) rfl,
    hmain "genre" (KwargValue.str genre) rfl (by decide) rfl,
    hmain "name" (KwargValue.str name) rfl (by decide) rfl,
    hmain "comment" (KwargValue.str comment) rfl (by decide) rfl,
    hmain "track_no" (ofTag track_no) rfl (by decide) rfl,
    hmain "disc_no" (ofTag disc_no) rfl (by decide) rfl,
    hmain "bitrate" (ofTag bitrate) rfl (by decide) rfl,
    hmain "musicbrainz_id" (ofTag mb_trackid) rfl (by decide) rfl,
    hdate, halbum]
  simp only [Track.mk.injEq]
  refine ⟨?_, ?_, ?_, ?_, ?_, ?_, ?_, ?_, ?_, ?_, ?_, trivial⟩
  · by_cases he : name.isEmpty = true <;> simp [KwargValue.truthy, he]
  · by_cases he : genre.isEmpty = true <;> simp [KwargValue.truthy, he]
  · by_cases he : comment.isEmpty = true <;> simp [KwargValue.truthy, he]
  · rcases track_no with _ | v
    · simp [ofTag, KwargValue.truthy]
    · by_cases ht : v.truthy = true <;> simp [ofTag, KwargValue.truthy, ht]
  · rcases disc_no with _ | v
    · simp [ofTag, KwargValue.truthy]
    · by_cases ht : v.truthy = true <;> simp [ofTag, KwargValue.truthy, ht]
  · rcases bitrate with _ | v
    · simp [ofTag, KwargValue.truthy]
    · by_cases ht : v.truthy = true <;> simp [ofTag, KwargValue.truthy, ht]
  · rcases mb_trackid with _ | v
    · simp [ofTag, KwargValue.truthy]
    · by_cases ht : v.truthy = true <;> simp [ofTag, KwargValue.truthy, ht]
  · rcases date with _ | d
    · rfl
    · by_cases hd : d.isEmpty = true <;> simp [hd]
  · rcases composers with _ | l
    · simp [ofArtists, KwargValue.truthy]
    · by_cases hl : l.isEmpty = true <;> simp [ofArtists, KwargValue.truthy, hl]
  · rcases performers with _ | l
    · simp [ofArtists, KwargValue.truthy]
    · by_cases hl : l.isEmpty = true <;> simp [ofArtists, KwargValue.truthy, hl]
  · rcases artists with _ | l
    · simp [ofArtists, KwargValue.truthy]
    · by_cases hl : l.isEmpty = true <;> simp [ofArtists, KwargValue.truthy, hl]

theorem tags_to_track_elim (tags : TagMap) (tr : Track)
    (h : tags_to_track tags = Except.ok tr) :
    ∃ composers performers artists albumArtists genre title name comment0 comment1 comment
      track_no disc_no bitrate mb_trackid album_name num_tracks num_discs mb_albumid date,
      _artists tags TAG_COMPOSER none = Except.ok composers
      ∧ _artists tags TAG_PERFORMER none = Except.ok performers
      ∧ _artists tags TAG_ARTIST (some "musicbrainz-artistid") = Except.ok artists
      ∧ _artists tags TAG_ALBUM_ARTIST (some "musicbrainz-albumartistid") =
          Except.ok albumArtists
      ∧ pyJoin "; " (TagMap.getD tags TAG_GENRE []) = Except.ok genre
      ∧ pyJoin "; " (TagMap.getD tags TAG_TITLE []) = Except.ok title
      ∧ orJoin title (TagMap.getD tags TAG_ORGANIZATION []) = Except.ok name
      ∧ pyJoin "; " (TagMap.getD tags "comment" []) = Except.ok comment0
      ∧ orJoin comment0 (TagMap.getD tags TAG_LOCATION []) = Except.ok comment1
      ∧ orJoin comment1 (TagMap.getD tags TAG_COPYRIGHT []) = Except.ok comment
      ∧ firstOrNone tags TAG_TRACK_NUMBER = Except.ok track_no
      ∧ firstOrNone tags TAG_ALBUM_VOLUME_NUMBER = Except.ok disc_no
      ∧ firstOrNone tags TAG_BITRATE = Except.ok bitrate
      ∧ firstOrNone tags "musicbrainz-trackid" = Except.ok mb_trackid
      ∧ firstOrNone tags TAG_ALBUM = Except.ok album_name
      ∧ firstOrNone tags TAG_TRACK_COUNT = Except.ok num_tracks
      ∧ firstOrNone tags TAG_ALBUM_VOLUME_COUNT = Except.ok num_discs
      ∧ firstOrNone tags "musicbrainz-albumid" = Except.ok mb_albumid
      ∧ dateField tags = Except.ok date
      ∧ tr = Track.ofKwargs (kwFilter
          ([("composers", ofArtists composers),
            ("performers", ofArtists performers),
            ("artists", ofArtists artists),
            ("genre", KwargValue.str genre),
            ("name", KwargValue.str name),
            ("comment", KwargValue.str comment),
            ("track_no", ofTag track_no),
            ("disc_no", ofTag disc_no),
            ("bitrate", ofTag bitrate),
            ("musicbrainz_id", ofTag mb_trackid)] ++ dateEntry date)
          ++ [("album", KwargValue.album (Album.ofKwargs (kwFilter
            [("artists", ofArtists albumArtists),
             ("name", ofTag album_name),
             ("num_tracks", ofTag num_tracks),
             ("num_discs", ofTag num_discs),
             ("musicbrainz_id", ofTag mb_albumid)])))]) := by
  unfold tags_to_track at h
  obtain ⟨composers, h1, h⟩ := bindE_ok h
  obtain ⟨performers, h2, h⟩ := bindE_ok h
  obtain ⟨artists, h3, h⟩ := bindE_ok h
  obtain ⟨albumArtists, h4, h⟩ := bindE_ok h
  obtain ⟨genre, h5, h⟩ := bindE_ok h
  obtain ⟨title, h6, h⟩ := bindE_ok h
  obtain ⟨name, h7, h⟩ := bindE_ok h
  obtain ⟨comment0, h8, h⟩ := bindE_ok h
  obtain ⟨comment1, h9, h⟩ := bindE_ok h
  obtain ⟨comment, h10, h⟩ := bindE_ok h
  obtain ⟨track_no, h11, h⟩ := bindE_ok h
  obtain ⟨disc_no, h12, h⟩ := bindE_ok h
  obtain ⟨bitrate, h13, h⟩ := bindE_ok h
  obtain ⟨mb_trackid, h14, h⟩ := bindE_ok h
  obtain ⟨album_name, h15, h⟩ := bindE_ok h
  obtain ⟨num_tracks, h16, h⟩ := bindE_ok h
  obtain ⟨num_discs, h17, h⟩ := bindE_ok h
  obtain ⟨mb_albumid, h18, h⟩ := bindE_ok h
  obtain ⟨date, h19, h⟩ := bindE_ok h
  simp only [Except.ok.injEq] at h
  exact ⟨composers, performers, artists, albumArtists, genre, title, name, comment0,
    comment1, comment, track_no, disc_no, bitrate, mb_trackid, album_name, num_tracks,
    num_discs, mb_albumid, date, h1, h2, h3, h4, h5, h6, h7, h8, h9, h10, h11, h12,
    h13, h14, h15, h16, h17, h18, h19, h.symm⟩

theorem orJoin_ok (p : String) (fb : List TagValue) (s : String)
    (h : orJoin p fb = Except.ok s) :
    s = if p.isEmpty then strJoin fb else p := by
  unfold orJoin at h
  by_cases hp : p.isEmpty = true
  · rw [if_pos hp] at h
    rw [if_pos hp]
    exact pyJoin_ok _ _ h
  · rw [if_neg hp] at h
    rw [if_neg hp]
    exact ((Except.ok.injEq _ _).mp h).symm

/-- C7: the track name is the joined title values, falling back to the
joined organization values when empty; the comment is the joined
comment values, falling back to location, then to copyright. -/
theorem name_comment_fallbacks (tags : TagMap) (tr : Track)
    (h : tags_to_track tags = Except.ok tr) :
    (tr.name =
      (let n := if (strJoin (TagMap.getD tags TAG_TITLE [])).isEmpty
                then strJoin (TagMap.getD tags TAG_ORGANIZATION [])
                else strJoin (TagMap.getD tags TAG_TITLE []);
       if n.isEmpty then none else some n))
    ∧ (tr.comment =
      (let c1 := if (strJoin (TagMap.getD tags "comment" [])).isEmpty
                 then strJoin (TagMap.getD tags TAG_LOCATION [])
                 else strJoin (TagMap.getD tags "comment" []);
       let c2 := if c1.isEmpty then strJoin (TagMap.getD tags TAG_COPYRIGHT []) else c1;
       if c2.isEmpty then none else some c2)) := by
  obtain ⟨composers, performers, artists, albumArtists, genre, title, name, comment0,
    comment1, comment, track_no, disc_no, bitrate, mb_trackid, album_name, num_tracks,
    num_discs, mb_albumid, date, h1, h2, h3, h4, h5, h6, h7, h8, h9, h10, h11, h12,
    h13, h14, h15, h16, h17, h18, h19, htr⟩ := tags_to_track_elim tags tr h
  subst htr
  obtain rfl := pyJoin_ok _ _ h6
  obtain rfl := orJoin_ok _ _ _ h7
  obtain rfl := pyJoin_ok _ _ h8
  obtain rfl := orJoin_ok _ _ _ h9
  obtain rfl := orJoin_ok _ _ _ h10
  rw [Track_ofKwargs_spec]
  exact ⟨rfl, rfl⟩

/-- Witness for C7: empty title falls back to organization, and an
empty comment and location fall back to copyright. -/
theorem name_comment_fallbacks_witness :
    ({ name := some "Org Name", comment := some "c2020",
       album := some {} } : Track).name =
      (let n := if (strJoin (TagMap.getD [("title", []),
                  ("organization", [TagValue.str "Org Name"]), ("comment", []),
                  ("location", []), ("copyright", [TagValue.str "c2020"])]
                  TAG_TITLE [])).isEmpty
                then strJoin (TagMap.getD [("title", []),
                  ("organization", [TagValue.str "Org Name"]), ("comment", []),
                  ("location", []), ("copyright", [TagValue.str "c2020"])]
                  TAG_ORGANIZATION [])
                else strJoin (TagMap.getD [("title", []),
                  ("organization", [TagValue.str "Org Name"]), ("comment", []),
                  ("location", []), ("copyright", [TagValue.str "c2020"])]
                  TAG_TITLE []);
       if n.isEmpty then none else some n) :=
  (name_comment_fallbacks [("title", []), ("organization", [TagValue.str "Org Name"]),
    ("comment", []), ("location", []), ("copyright", [TagValue.str "c2020"])]
    { name := some "Org Name", comment := some "c2020", album := some {} }
    (by rfl)).1

theorem _artists_none_id (tags : TagMap) (nk : String) (r : Option (List Artist))
    (h : _artists tags nk none = Except.ok r) :
    ∀ l, r = some l → ∀ a ∈ l, a.musicbrainz_id = none := by
  unfold _artists at h
  by_cases he : (TagMap.getD tags nk []).isEmpty = true
  · rw [if_pos he] at h
    obtain rfl := (Except.ok.injEq _ _).mp h
    intro l hl
    cases hl
  · rw [if_neg he] at h
    have hc : ((TagMap.getD tags nk []).length == 1 && keyIn none tags) = false := by
      simp [keyIn]
    simp only [hc, Bool.false_eq_true, if_false] at h
    obtain rfl := (Except.ok.injEq _ _).mp h
    intro l hl
    obtain rfl := (Option.some.injEq _ _).mp hl
    intro a ha
    obtain ⟨nm, _, rfl⟩ := List.mem_map.mp ha
    rfl

/-- C9: composers and performers are extracted with no id tag key, so
none of their artists ever carries a musicbrainz identifier. -/
theorem composers_performers_no_id (tags : TagMap) (tr : Track)
    (h : tags_to_track tags = Except.ok tr) :
    (∀ a ∈ tr.composers, a.musicbrainz_id = none)
    ∧ (∀ a ∈ tr.performers, a.musicbrainz_id = none) := by
  obtain ⟨composers, performers, artists, albumArtists, genre, title, name, comment0,
    comment1, comment, track_no, disc_no, bitrate, mb_trackid, album_name, num_tracks,
    num_discs, mb_albumid, date, h1, h2, h3, h4, h5, h6, h7, h8, h9, h10, h11, h12,
    h13, h14, h15, h16, h17, h18, h19, htr⟩ := tags_to_track_elim tags tr h
  subst htr
  have hcid := _artists_none_id tags TAG_COMPOSER composers h1
  have hpid := _artists_none_id tags TAG_PERFORMER performers h2
  rw [Track_ofKwargs_spec]
  constructor
  · rcases composers with _ | l
    · simp
    · by_cases hl : l.isEmpty = true <;> simp only [hl, if_true, if_false]
      · simp
      · exact hcid l rfl
  · rcases performers with _ | l
    · simp
    · by_cases hl : l.isEmpty = true <;> simp only [hl, if_true, if_false]
      · simp
      · exact hpid l rfl

/-- Witness for C9: a composer extracted while a musicbrainz artist id
tag is present still carries no identifier. -/
theorem composers_performers_no_id_witness :
    ({ name := some (TagValue.str "C1"), musicbrainz_id := none } : Artist).musicbrainz_id
      = none :=
  (composers_performers_no_id
    [("composer", [TagValue.str "C1", TagValue.str "C2"]),
     ("performer", [TagValue.str "P"]), ("musicbrainz-artistid", [TagValue.str "x"])]
    { composers := [{ name := some (TagValue.str "C1"), musicbrainz_id := none },
        { name := some (TagValue.str "C2"), musicbrainz_id := none }],
      performers := [{ name := some (TagValue.str "P"), musicbrainz_id := none }],
      album := some {} }
    (by rfl)).1
    { name := some (TagValue.str "C1"), musicbrainz_id := none }
    (by simp)

/-- C8: no falsy computed value survives into the constructed records —
string fields are never empty, scalar fields never hold a falsy tag
value, on the Album as well — the domain defaults applying instead (as
the empty-input conjunct shows), and the album field of the Track is
always set, even for an empty tag dictionary. -/
theorem falsy_fields_dropped (tags : TagMap) (tr : Track)
    (h : tags_to_track tags = Except.ok tr) :
    (tr.album).isSome = true
    ∧ (∀ s, tr.name = some s → s.isEmpty = false)
    ∧ (∀ s, tr.genre = some s → s.isEmpty = false)
    ∧ (∀ s, tr.comment = some s → s.isEmpty = false)
    ∧ (∀ s, tr.date = some s → s.isEmpty = false)
    ∧ (∀ v, tr.track_no = some v → v.truthy = true)
    ∧ (∀ v, tr.disc_no = some v → v.truthy = true)
    ∧ (∀ v, tr.bitrate = some v → v.truthy = true)
    ∧ (∀ v, tr.musicbrainz_id = some v → v.truthy = true)
    ∧ (∀ al, tr.album = some al →
        (∀ v, al.name = some v → v.truthy = true)
        ∧ (∀ v, al.num_tracks = some v → v.truthy = true)
        ∧ (∀ v, al.num_discs = some v → v.truthy = true)
        ∧ (∀ v, al.musicbrainz_id = some v → v.truthy = true))
    ∧ tags_to_track [] = Except.ok { album := some {} } := by
  obtain ⟨composers, performers, artists, albumArtists, genre, title, name, comment0,
    comment1, comment, track_no, disc_no, bitrate, mb_trackid, album_name, num_tracks,
    num_discs, mb_albumid, date, h1, h2, h3, h4, h5, h6, h7, h8, h9, h10, h11, h12,
    h13, h14, h15, h16, h17, h18, h19, htr⟩ := tags_to_track_elim tags tr h
  subst htr
  rw [Track_ofKwargs_spec, Album_ofKwargs_spec]
  refine ⟨rfl, ?_, ?_, ?_, ?_, ?_, ?_, ?_, ?_, ?_, by rfl⟩
  · intro s hs
    by_cases he : name.isEmpty = true
    · simp [he] at hs
    · simp only [he, Bool.false_eq_true, if_false, Option.some.injEq] at hs
      subst hs
      simpa using he
  · intro s hs
    by_cases he : genre.isEmpty = true
    · simp [he] at hs
    · simp only [he, Bool.false_eq_true, if_false, Option.some.injEq] at hs
      subst hs
      simpa using he
  · intro s hs
    by_cases he : comment.isEmpty = true
    · simp [he] at hs
    · simp only [he, Bool.false_eq_true, if_false, Option.some.injEq] at hs
      subst hs
      simpa using he
  · intro s hs
    rcases date with _ | d
    · cases hs
    · by_cases he : d.isEmpty = true
      · simp [he] at hs
      · simp only [he, Bool.false_eq_true, if_false, Option.some.injEq] at hs
        subst hs
        simpa using he
  · intro v hv
    rcases track_no with _ | w
    · cases hv
    · by_cases ht : w.truthy = true
      · simp only [ht, if_true, Option.some.injEq] at hv
        subst hv
        exact ht
      · simp [ht] at hv
  · intro v hv
    rcases disc_no with _ | w
    · cases hv
    · by_cases ht : w.truthy = true
      · simp only [ht, if_true, Option.some.injEq] at hv
        subst hv
        exact ht
      · simp [ht] at hv
  · intro v hv
    rcases bitrate with _ | w
    · cases hv
    · by_cases ht : w.truthy = true
      · simp only [ht, if_true, Option.some.injEq] at hv
        subst hv
        exact ht
      · simp [ht] at hv
  · intro v hv
    rcases mb_trackid with _ | w
    · cases hv
    · by_cases ht : w.truthy = true
      · simp only [ht, if_true, Option.some.injEq] at hv
        subst hv
        exact ht
      · simp [ht] at hv
  · intro al hal
    obtain rfl := (Option.some.injEq _ _).mp hal
    refine ⟨?_, ?_, ?_, ?_⟩
    · intro v hv
      rcases album_name with _ | w
      · cases hv
      · by_cases ht : w.truthy = true
        · simp only [ht, if_true, Option.some.injEq] at hv
          subst hv
          exact ht
        · simp [ht] at hv
    · intro v hv
      rcases num_tracks with _ | w
      · cases hv
      · by_cases ht : w.truthy = true
        · simp only [ht, if_true, Option.some.injEq] at hv
          subst hv
          exact ht
        · simp [ht] at hv
    · intro v hv
      rcases num_discs with _ | w
      · cases hv
      · by_cases ht : w.truthy = true
        · simp only [ht, if_true, Option.some.injEq] at hv
          subst hv
          exact ht
        · simp [ht] at hv
    · intro v hv
      rcases mb_albumid with _ | w
      · cases hv
      · by_cases ht : w.truthy = true
        · simp only [ht, if_true, Option.some.injEq] at hv
          subst hv
          exact ht
        · simp [ht] at hv

/-- Witness for C8 at a tag dictionary whose genre joins to the empty
string and whose bitrate is zero: both are dropped, the album is still
set and its kept name value is truthy; the empty dictionary yields the
all-default Track with a sparse Album attached. -/
theorem falsy_fields_dropped_witness :
    (({ album := some { name := some (TagValue.str "Al") } } : Track).album).isSome = true
    ∧ TagValue.truthy (TagValue.str "Al") = true
    ∧ tags_to_track [] = Except.ok { album := some {} } := by
  have h := falsy_fields_dropped
    [("genre", [TagValue.str ""]), ("bitrate", [TagValue.int 0]),
     ("album", [TagValue.str "Al"])]
    { album := some { name := some (TagValue.str "Al") } } (by rfl)
  exact ⟨h.1,
    ((h.2.2.2.2.2.2.2.2.2.1 { name := some (TagValue.str "Al") } rfl).1
      (TagValue.str "Al") rfl),
    h.2.2.2.2.2.2.2.2.2.2⟩

theorem noIndex_bind {α β : Type} {x : Except PyError α} {f : α → Except PyError β}
    (hx : noIndex x) (hf : ∀ a, noIndex (f a)) : noIndex (x >>= f) := by
  cases x with
  | ok a => simpa [Bind.bind, Except.bind] using hf a
  | error e => simpa [noIndex, Bind.bind, Except.bind] using hx

theorem noIndex_of_ok {α : Type} {x : Except PyError α} (h : ∃ r, x = Except.ok r) :
    noIndex x := by
  obtain ⟨r, hr⟩ := h
  rw [hr]
  intro hh
  cases hh

theorem _artists_ok (tags : TagMap) (nk : String) (ik : Option String)
    (hne : ∀ p ∈ tags, Prod.snd p ≠ ([] : List TagValue)) :
    ∃ r, _artists tags nk ik = Except.ok r := by
  unfold _artists
  by_cases he : (TagMap.getD tags nk []).isEmpty = true
  · exact ⟨none, by rw [if_pos he]⟩
  · rw [if_neg he]
    by_cases hc : ((TagMap.getD tags nk []).length == 1 && keyIn ik tags) = true
    · rw [if_pos hc]
      obtain ⟨n0, ns, hn⟩ : ∃ n0 ns, TagMap.getD tags nk [] = n0 :: ns := by
        cases hl : TagMap.getD tags nk [] with
        | nil => exact absurd (by rw [hl]; rfl) he
        | cons a l => exact ⟨a, l, rfl⟩
      obtain ⟨k, rfl⟩ : ∃ k, ik = some k := by
        rcases ik with _ | k
        · exfalso
          simp [keyIn] at hc
        · exact ⟨k, rfl⟩
      have hkey : TagMap.hasKey tags k = true := by
        simp only [Bool.and_eq_true] at hc
        simpa [keyIn] using hc.2
      obtain ⟨ids, hids⟩ : ∃ ids, TagMap.find? tags k = some ids := by
        unfold TagMap.hasKey at hkey
        cases hf : TagMap.find? tags k with
        | none => rw [hf] at hkey; cases hkey
        | some ids => exact ⟨ids, rfl⟩
      obtain ⟨i0, is, rfl⟩ : ∃ i0 is, ids = i0 :: is := by
        cases ids with
        | nil => exact absurd rfl (hne (k, []) (mem_of_find? tags k [] hids))
        | cons a l => exact ⟨a, l, rfl⟩
      have h1 : pyIndex (TagMap.getD tags nk []) 0 = Except.ok n0 := by
        rw [hn]
        rfl
      have h2 : pyIndex (TagMap.getD tags k []) 0 = Except.ok i0 := by
        unfold TagMap.getD
        rw [hids]
        rfl
      refine ⟨some [{ name := some n0, musicbrainz_id := some i0 }], ?_⟩
      simp [h1, h2, Bind.bind, Except.bind]
    · rw [if_neg hc]
      exact ⟨_, rfl⟩

theorem firstOrNone_ok (tags : TagMap) (k : String)
    (hne : ∀ p ∈ tags, Prod.snd p ≠ ([] : List TagValue)) :
    ∃ r, firstOrNone tags k = Except.ok r := by
  unfold firstOrNone
  cases hf : TagMap.find? tags k with
  | none => exact ⟨none, rfl⟩
  | some vs =>
    obtain ⟨v0, vs2, rfl⟩ : ∃ v0 vs2, vs = v0 :: vs2 := by
      cases vs with
      | nil => exact absurd rfl (hne (k, []) (mem_of_find? tags k [] hf))
      | cons a l => exact ⟨a, l, rfl⟩
    exact ⟨some v0, rfl⟩

theorem noIndex_pyJoin (sep : String) (vs : List TagValue) : noIndex (pyJoin sep vs) := by
  unfold noIndex pyJoin
  by_cases hall : vs.all (fun v => match v with | .str _ => true | _ => false) = true
  · rw [if_pos hall]
    intro hh
    cases hh
  · rw [if_neg hall]
    intro hh
    cases hh

theorem noIndex_orJoin (p : String) (fb : List TagValue) : noIndex (orJoin p fb) := by
  unfold orJoin
  by_cases hp : p.isEmpty = true
  · rw [if_pos hp]
    exact noIndex_pyJoin _ _
  · rw [if_neg hp]
    intro hh
    cases hh

theorem noIndex_dateField (tags : TagMap) : noIndex (dateField tags) := by
  unfold dateField
  cases hf : TagMap.find? tags TAG_DATE with
  | none =>
    intro hh
    cases hh
  | some vs =>
    cases hh2 : vs.head? with
    | none =>
      simp only [hh2]
      intro hh
      cases hh
    | some v =>
      simp only [hh2]
      by_cases ht : v.truthy = true
      · rw [if_pos ht]
        cases v with
        | str s =>
          intro hh
          cases hh
        | int n =>
          intro hh
          cases hh
        | date y m d =>
          intro hh
          cases hh
      · rw [if_neg ht]
        intro hh
        cases hh

theorem tags_to_track_no_index (tags : TagMap)
    (hne : ∀ p ∈ tags, Prod.snd p ≠ ([] : List TagValue)) :
    noIndex (tags_to_track tags) := by
  unfold tags_to_track
  refine noIndex_bind (noIndex_of_ok (_artists_ok tags TAG_COMPOSER none hne))
    fun composers => ?_
  refine noIndex_bind (noIndex_of_ok (_artists_ok tags TAG_PERFORMER none hne))
    fun performers => ?_
  refine noIndex_bind (noIndex_of_ok (_artists_ok tags TAG_ARTIST _ hne))
    fun artists => ?_
  refine noIndex_bind (noIndex_of_ok (_artists_ok tags TAG_ALBUM_ARTIST _ hne))
    fun albumArtists => ?_
  refine noIndex_bind (noIndex_pyJoin _ _) fun genre => ?_
  refine noIndex_bind (noIndex_pyJoin _ _) fun title => ?_
  refine noIndex_bind (noIndex_orJoin _ _) fun name => ?_
  refine noIndex_bind (noIndex_pyJoin _ _) fun comment0 => ?_
  refine noIndex_bind (noIndex_orJoin _ _) fun comment1 => ?_
  refine noIndex_bind (noIndex_orJoin _ _) fun comment => ?_
  refine noIndex_bind (noIndex_of_ok (firstOrNone_ok tags TAG_TRACK_NUMBER hne))
    fun track_no => ?_
  refine noIndex_bind (noIndex_of_ok (firstOrNone_ok tags TAG_ALBUM_VOLUME_NUMBER hne))
    fun disc_no => ?_
  refine noIndex_bind (noIndex_of_ok (firstOrNone_ok tags TAG_BITRATE hne))
    fun bitrate => ?_
  refine noIndex_bind (noIndex_of_ok (firstOrNone_ok tags "musicbrainz-trackid" hne))
    fun mb_trackid => ?_
  refine noIndex_bind (noIndex_of_ok (firstOrNone_ok tags TAG_ALBUM hne))
    fun album_name => ?_
  refine noIndex_bind (noIndex_of_ok (firstOrNone_ok tags TAG_TRACK_COUNT hne))
    fun num_tracks => ?_
  refine noIndex_bind (noIndex_of_ok (firstOrNone_ok tags TAG_ALBUM_VOLUME_COUNT hne))
    fun num_discs => ?_
  refine noIndex_bind (noIndex_of_ok (firstOrNone_ok tags "musicbrainz-albumid" hne))
    fun mb_albumid => ?_
  refine noIndex_bind (noIndex_dateField tags) fun date => ?_
  intro hh
  cases hh

/-- C10: when every value sequence in the tag dictionary is non-empty,
neither the artist helper nor the normaliser can raise an out-of-range
list access; without that precondition, a present id key with an empty
sequence next to a single artist name makes the unguarded first-id
access raise IndexError. -/
theorem index_safety :
    (∀ tags : TagMap, (∀ p ∈ tags, Prod.snd p ≠ ([] : List TagValue)) →
      (∀ nk ik, _artists tags nk ik ≠ Except.error PyError.indexError)
      ∧ tags_to_track tags ≠ Except.error PyError.indexError)
    ∧ _artists [("artist", [TagValue.str "A"]), ("musicbrainz-artistid", [])]
        "artist" (some "musicbrainz-artistid") = Except.error PyError.indexError := by
  constructor
  · intro tags hne
    exact ⟨fun nk ik => noIndex_of_ok (_artists_ok tags nk ik hne),
      tags_to_track_no_index tags hne⟩
  · rfl

/-- Witness for C10 at a concrete in-bounds dictionary. -/
theorem index_safety_witness :
    _artists [("artist", [TagValue.str "A"]), ("musicbrainz-artistid", [TagValue.str "i"])]
        "artist" (some "musicbrainz-artistid") ≠ Except.error PyError.indexError
    ∧ tags_to_track [("artist", [TagValue.str "A"]),
        ("musicbrainz-artistid", [TagValue.str "i"])] ≠ Except.error PyError.indexError :=
  ⟨((index_safety.1 [("artist", [TagValue.str "A"]),
      ("musicbrainz-artistid", [TagValue.str "i"])] (by decide)).1
      "artist" (some "musicbrainz-artistid")),
   (index_safety.1 [("artist", [TagValue.str "A"]),
      ("musicbrainz-artistid", [TagValue.str "i"])] (by decide)).2⟩
